import Mathlib

/-!
Verification of the cost-tracking and metrics-aggregation subsystem of the
sdlc repository, embedded shallowly from scripts/auto_tracker.py (the
Recorder side) and scripts/dashboard.py (the Aggregator side).

Modelling conventions:
- Python float values are modelled as exact rationals.
- Python round(x, 6) is modelled as round-half-to-even at six decimal
  places (the rhe and round6 functions below).
- Python functions that may raise are modelled as Except-valued functions;
  a function that is total in the model corresponds to one that returns
  normally on all inputs.
- Python str comparison and str.startswith are modelled on the underlying
  character lists.
-/

/-- Pricing table of auto_tracker.py lines 26-32, in dict insertion order.
Rates are per one million tokens: 2.5 is 5/2, 0.15 is 3/20, 0.6 is 3/5,
0.5 is 1/2, 1.5 is 3/2. -/
def PRICING : List (String × ℚ × ℚ) :=
  [("gpt-4", 30, 60),
   ("gpt-4-turbo", 10, 30),
   ("gpt-4o", 5/2, 10),
   ("gpt-4o-mini", 3/20, 3/5),
   ("gpt-3.5-turbo", 1/2, 3/2)]

/-- Python model.startswith(key): key is a character-level prefix of model
(case sensitive). Used at auto_tracker.py line 47. -/
def startsWith (key model : String) : Bool :=
  key.toList.isPrefixOf model.toList

/-- Loop of auto_tracker.py lines 45-49: scan PRICING in insertion order and
take the first entry whose key satisfies model.startswith(key); break on the
first hit. -/
def findPricing (model : String) : Option (ℚ × ℚ) :=
  (PRICING.find? fun e => startsWith e.1 model).map fun e => e.2

/-- Fallback of auto_tracker.py lines 51-52: if no entry matched, use
PRICING.get(the gpt-4 key), whose rates are (30, 60). -/
def pricingFor (model : String) : ℚ × ℚ :=
  (findPricing model).getD (30, 60)

/-- Round-half-to-even of a rational to the nearest integer; model of the
tie behaviour of Python round. -/
def rhe (x : ℚ) : ℤ :=
  if x - ⌊x⌋ < 1/2 then ⌊x⌋
  else if 1/2 < x - ⌊x⌋ then ⌊x⌋ + 1
  else if Even ⌊x⌋ then ⌊x⌋ else ⌊x⌋ + 1

/-- Python round(x, 6), modelled over the rationals. -/
def round6 (x : ℚ) : ℚ := (rhe (x * 1000000) : ℚ) / 1000000

/-- Function calculate_cost of auto_tracker.py lines 38-58.  Lines 41-42
compute a normalized model_key that the rest of the function never uses
(dead code), so it is omitted here.  Cost is
round(input_tokens / 1e6 * rate_in + output_tokens / 1e6 * rate_out, 6). -/
def calculate_cost (model : String) (input_tokens output_tokens : ℕ) : ℚ :=
  round6 ((input_tokens : ℚ) / 1000000 * (pricingFor model).1
        + (output_tokens : ℚ) / 1000000 * (pricingFor model).2)

theorem rhe_abs (x : ℚ) : |((rhe x : ℤ) : ℚ) - x| ≤ 1/2 := by
  unfold rhe
  have h1 : ((⌊x⌋ : ℤ) : ℚ) ≤ x := Int.floor_le x
  have h2 : x < ⌊x⌋ + 1 := Int.lt_floor_add_one x
  split_ifs with hf hg he
  · rw [abs_le]; constructor <;> linarith
  · rw [abs_le]; constructor <;> push_cast <;> linarith
  · rw [abs_le]; push_cast; push_neg at hf; constructor <;> linarith
  · rw [abs_le]; push_cast; push_neg at hf hg; constructor <;> linarith

theorem rhe_nonneg (x : ℚ) (hx : 0 ≤ x) : 0 ≤ rhe x := by
  unfold rhe
  have h0 : (0:ℤ) ≤ ⌊x⌋ := Int.floor_nonneg.mpr hx
  split_ifs <;> omega

theorem round6_abs (x : ℚ) : |round6 x - x| ≤ 1/2000000 := by
  unfold round6
  have h := rhe_abs (x * 1000000)
  have heq : ((rhe (x * 1000000) : ℤ) : ℚ) / 1000000 - x
      = (((rhe (x * 1000000) : ℤ) : ℚ) - x * 1000000) / 1000000 := by ring
  rw [heq, abs_div, abs_of_pos (show (0:ℚ) < 1000000 by norm_num)]
  calc |((rhe (x * 1000000) : ℤ) : ℚ) - x * 1000000| / 1000000
      ≤ (1/2) / 1000000 := by
        apply div_le_div_of_nonneg_right h ?_ |>.trans_eq rfl
        norm_num
    _ = 1/2000000 := by norm_num

theorem round6_nonneg (x : ℚ) (hx : 0 ≤ x) : 0 ≤ round6 x := by
  unfold round6
  have := rhe_nonneg (x * 1000000) (by positivity)
  positivity

theorem pricingFor_nonneg (model : String) :
    0 ≤ (pricingFor model).1 ∧ 0 ≤ (pricingFor model).2 := by
  unfold pricingFor findPricing
  cases h : PRICING.find? fun e => startsWith e.1 model with
  | none => simp
  | some e =>
    have hm : e ∈ PRICING := List.mem_of_find?_eq_some h
    simp only [PRICING, List.mem_cons, List.mem_singleton, List.not_mem_nil,
      or_false] at hm
    rcases hm with rfl | rfl | rfl | rfl | rfl <;> simp <;> norm_num

/-- C2. Evaluation of calculate_cost at the failing input of the claim:
for model gpt-4o-mini with 1000 input and 2000 output tokens the code
returns 0.15 = 3/20, not the claimed 0.00135 = 27/20000, because the
pricing loop of lines 46-49 matches the gpt-4 key first (gpt-4 is a
prefix of gpt-4o-mini and iterates first), so the tables gpt-4o-mini
entry is never reached. -/
theorem c2_gpt4oMini_cost_eval :
    calculate_cost "gpt-4o-mini" 1000 2000 = 3/20
      ∧ pricingFor "gpt-4o-mini" = (30, 60)
      ∧ (3/20 : ℚ) ≠ 27/20000 := by
  have hp : pricingFor "gpt-4o-mini" = ((30 : ℚ), (60 : ℚ)) := rfl
  refine ⟨?_, hp, by norm_num⟩
  unfold calculate_cost
  rw [hp]
  norm_num [round6, rhe]

/-- C8. calculate_cost is non-negative for every model and token counts,
and scales linearly with token counts up to the tolerance introduced by
rounding each result to six decimal places: doubling both token counts
changes the cost by at most 3/2000000 from twice the original cost.
Determinism is immediate: calculate_cost is a pure function of its
arguments. -/
theorem c8_cost_nonneg_and_linear (model : String) (i o : ℕ) :
    0 ≤ calculate_cost model i o
      ∧ |calculate_cost model (2*i) (2*o) - 2 * calculate_cost model i o|
          ≤ 3/2000000 := by
  obtain ⟨hp1, hp2⟩ := pricingFor_nonneg model
  constructor
  · unfold calculate_cost
    apply round6_nonneg
    positivity
  · unfold calculate_cost
    have harg : ((2*i : ℕ) : ℚ) / 1000000 * (pricingFor model).1
        + ((2*o : ℕ) : ℚ) / 1000000 * (pricingFor model).2
        = 2 * ((i : ℚ) / 1000000 * (pricingFor model).1
             + (o : ℚ) / 1000000 * (pricingFor model).2) := by
      push_cast; ring
    rw [harg]
    set A := (i : ℚ) / 1000000 * (pricingFor model).1
           + (o : ℚ) / 1000000 * (pricingFor model).2 with hA
    have h1 := round6_abs (2*A)
    have h2 := round6_abs A
    rw [abs_le] at h1 h2 ⊢
    constructor <;> linarith

/-- Pricing-key match as the C5 claim words it: the key is a prefix of or
contained within the model name, compared case-insensitively.  Modelled
from the claim for comparison with the source behaviour. -/
def matchesC5spec (key model : String) : Bool :=
  let lk := key.toList.map Char.toLower
  let lm := model.toList.map Char.toLower
  lk.isPrefixOf lm || lm.tails.any fun t => lk.isPrefixOf t

/-- Pricing resolution as the C5 claim words it: first table entry whose
key matches case-insensitively by prefix or containment, with the default
gpt-4 entry as fallback. -/
def pricingForC5spec (model : String) : ℚ × ℚ :=
  ((PRICING.find? fun e => matchesC5spec e.1 model).map fun e => e.2).getD (30, 60)

/-- Cost computation under the C5-claimed pricing resolution. -/
def calculate_cost_C5spec (model : String) (input_tokens output_tokens : ℕ) : ℚ :=
  round6 ((input_tokens : ℚ) / 1000000 * (pricingForC5spec model).1
        + (output_tokens : ℚ) / 1000000 * (pricingForC5spec model).2)

/-- C5 counterexample. The claimed case-insensitive matching does not hold:
for model GPT-3.5-turbo the code finds no case-sensitive prefix match and
falls back to the gpt-4 default rates, giving cost 30 for one million
input tokens, whereas the claimed resolution matches the gpt-3.5-turbo
entry case-insensitively and would give 1/2. -/
theorem c5_case_insensitive_cx :
    calculate_cost "GPT-3.5-turbo" 1000000 0 = 30
      ∧ calculate_cost_C5spec "GPT-3.5-turbo" 1000000 0 = 1/2
      ∧ (30 : ℚ) ≠ 1/2 := by
  have hp : pricingFor "GPT-3.5-turbo" = ((30 : ℚ), (60 : ℚ)) := rfl
  have hs : pricingForC5spec "GPT-3.5-turbo" = ((1/2 : ℚ), (3/2 : ℚ)) := rfl
  refine ⟨?_, ?_, by norm_num⟩
  · unfold calculate_cost; rw [hp]; norm_num [round6, rhe]
  · unfold calculate_cost_C5spec; rw [hs]; norm_num [round6, rhe]

/-- C5 amended. Pricing resolution is a case-sensitive prefix scan of the
table in insertion order (no containment, no case folding); a model with
no matching key, such as mystery-model-9000, falls back to the gpt-4
default entry (rates 30 and 60 per million tokens) and the function
returns normally (it is total); a model that does have a case-sensitive
prefix match, such as gpt-3.5-turbo-0125, is priced by the first matching
entry. -/
theorem c5_prefix_resolution_amended :
    (∀ i o : ℕ, calculate_cost "mystery-model-9000" i o
        = round6 ((i : ℚ) / 1000000 * 30 + (o : ℚ) / 1000000 * 60))
      ∧ findPricing "mystery-model-9000" = none
      ∧ calculate_cost "gpt-3.5-turbo-0125" 1000000 0 = 1/2 := by
  have hp : pricingFor "mystery-model-9000" = ((30 : ℚ), (60 : ℚ)) := rfl
  have hn : findPricing "mystery-model-9000" = none := rfl
  have hq : pricingFor "gpt-3.5-turbo-0125" = ((1/2 : ℚ), (3/2 : ℚ)) := rfl
  refine ⟨fun i o => ?_, hn, ?_⟩
  · unfold calculate_cost; rw [hp]
  · unfold calculate_cost; rw [hq]; norm_num [round6, rhe]

/-- Shapes of the GET response body that send_usage_data distinguishes at
auto_tracker.py lines 80-99: a dict with a record key whose value nests a
data list (lines 88-89), a dict whose record value is itself a list
(lines 90-91), a dict with a record value of any other shape (lines
92-93), a bare top-level list (line 95), or anything else. -/
inductive BinResp (α : Type) where
  | recordData (records : List α)
  | recordList (records : List α)
  | recordOther
  | topList (records : List α)
  | other

/-- Record-list extraction of auto_tracker.py lines 84-99, including the
final guard of lines 98-99 that replaces any non-list value by an empty
list. -/
def extractRecords {α : Type} : BinResp α → List α
  | .recordData l => l
  | .recordList l => l
  | .recordOther => []
  | .topList l => l
  | .other => []

/-- Line 102 of auto_tracker.py: records.append(data).  The PUT body of
line 106 then carries this whole list; no truncation of any kind happens
on the write path. -/
def appendedRecords {α : Type} (records : List α) (data : α) : List α :=
  records ++ [data]

/-- Body of the try block of send_usage_data, auto_tracker.py lines 68-125.
The GET and PUT calls are oracles supplied as arguments; an Except error
models a Python exception crossing that call.  Status 200 on the GET leads
to extract, append, PUT and a success test against 200/201; any other GET
status returns False (lines 122-125). -/
def send_body {α : Type} (get : Except String (ℕ × BinResp α))
    (put : List α → Except String ℕ) (data : α) : Except String Bool := do
  let r ← get
  if r.1 = 200 then
    let records := appendedRecords (extractRecords r.2) data
    let s ← put records
    pure (decide (s = 200 ∨ s = 201))
  else
    pure false

/-- Function send_usage_data of auto_tracker.py lines 61-129 as observed by
its caller.  The configured flag models the endpoint check of lines 63-66
(unconfigured endpoints just log locally and return False); the
surrounding try/except of lines 68-129 catches every exception, prints a
warning and returns False, so the Except.error case of the body never
escapes. -/
def send_usage_data {α : Type} (configured : Bool)
    (get : Except String (ℕ × BinResp α)) (put : List α → Except String ℕ)
    (data : α) : Except String Bool :=
  if configured then
    match send_body get put data with
    | Except.ok b => Except.ok b
    | Except.error _ => Except.ok false
  else
    Except.ok false

theorem foldl_appendedRecords {α : Type} (l : List α) :
    ∀ acc : List α, l.foldl appendedRecords acc = acc ++ l := by
  induction l with
  | nil => intro acc; simp
  | cons x xs ih =>
    intro acc
    simp only [List.foldl_cons, ih, appendedRecords]
    simp

/-- C1 counterexample. The persisted log is not bounded at 1000 entries:
the write path of send_usage_data only ever appends, so after appending
1005 sequential records to an empty log all 1005 remain (not the most
recent 1000), and the first retained record is the 1st inserted (record
0 below), not the 6th. -/
theorem c1_no_truncation_cx :
    ((List.range 1005).foldl appendedRecords []).length = 1005
      ∧ ¬ ((List.range 1005).foldl appendedRecords []).length ≤ 1000
      ∧ ((List.range 1005).foldl appendedRecords []).head? = some 0
      ∧ some (0 : ℕ) ≠ some 5 := by
  rw [foldl_appendedRecords, List.nil_append]
  refine ⟨by simp, by simp, ?_, by simp⟩
  rw [List.range_succ_eq_map]
  rfl

/-- C1 amended. The record path keeps every earlier record and appends the
new one at the end, with no eviction: each append grows the log by exactly
one and leaves the existing prefix untouched, and appending any number of
sequential records to an empty log retains all of them in insertion
order. -/
theorem c1_append_unbounded_amended (log : List ℕ) (d : ℕ) (n : ℕ) :
    (appendedRecords log d).length = log.length + 1
      ∧ (appendedRecords log d).take log.length = log
      ∧ (List.range n).foldl appendedRecords [] = List.range n := by
  refine ⟨by simp [appendedRecords], ?_, ?_⟩
  · simp [appendedRecords, List.take_left]
  · rw [foldl_appendedRecords, List.nil_append]

/-- C9 counterexample. An unrecoverable storage-write failure does not
surface as a StorageError or any other exception: with a working GET and
a PUT that fails (storage medium unwritable), send_usage_data returns
Except.ok false — the except block of lines 127-129 swallows the failure
and reports it only as a printed warning and a False return value.  No
StorageError type exists anywhere in the source. -/
theorem c9_write_failure_swallowed_cx :
    send_usage_data true (Except.ok (200, BinResp.topList ([] : List ℕ)))
      (fun _ => Except.error "storage medium unwritable") 7
      = Except.ok false := rfl

/-- C9 amended. The Recorder write path never raises to its caller under
any condition: for every configuration, GET outcome, PUT outcome and
record, send_usage_data returns normally with some boolean; recoverable
conditions and unrecoverable storage-write failures alike are reported
through the return value, never through an exception. -/
theorem c9_never_raises_amended {α : Type} (configured : Bool)
    (get : Except String (ℕ × BinResp α)) (put : List α → Except String ℕ)
    (data : α) :
    ∃ b : Bool, send_usage_data configured get put data = Except.ok b := by
  unfold send_usage_data
  cases configured with
  | false => exact ⟨false, rfl⟩
  | true =>
    cases h : send_body get put data with
    | ok b => exact ⟨b, by simp [h]⟩
    | error e => exact ⟨false, by simp [h]⟩

/-- Response of the wrapped OpenAI call as tracked_create inspects it:
the model attribute (line 211) and the optional usage attribute carrying
prompt and completion token counts (lines 209, 216-217). -/
structure ChatResponse where
  model : String
  usage : Option (ℕ × ℕ)

/-- Arguments of one track_usage invocation made by tracked_create
(auto_tracker.py lines 214-217). -/
structure UsageEvent where
  model : String
  input_tokens : ℕ
  output_tokens : ℕ

/-- Function tracked_create of auto_tracker.py lines 202-225.  The call to
the original create method at line 206 sits outside any try block, so a
raised exception propagates unchanged and no tracking code runs; only a
returned response carrying a usage attribute triggers a track_usage call
(lines 209-223), whose model argument is the model keyword argument when
given, else response.model (line 211).  The second component accumulates
the track_usage invocations. -/
def tracked_create (kwargsModel : Option String)
    (callResult : Except String ChatResponse) (tracked : List UsageEvent) :
    Except String ChatResponse × List UsageEvent :=
  match callResult with
  | Except.error e => (Except.error e, tracked)
  | Except.ok resp =>
    match resp.usage with
    | some u => (Except.ok resp,
        tracked ++ [⟨kwargsModel.getD resp.model, u.1, u.2⟩])
    | none => (Except.ok resp, tracked)

/-- C3 counterexample. When the underlying model call raises, no
UsageRecord at all is recorded (let alone one with Failed status and zero
token counts): tracked_create propagates the error and leaves the list of
track_usage invocations empty. -/
theorem c3_failure_not_recorded_cx :
    tracked_create none (Except.error "upstream error") []
      = (Except.error "upstream error", ([] : List UsageEvent)) := rfl

/-- C3 amended. The tracking wrapper records only successful calls that
expose usage data: an error from the underlying call propagates with
nothing recorded, a success without usage records nothing, and a success
with usage appends exactly one event carrying the reported token counts. -/
theorem c3_error_propagates_amended (km : Option String) (e : String)
    (m : String) (u : ℕ × ℕ) (tracked : List UsageEvent) :
    tracked_create km (Except.error e) tracked = (Except.error e, tracked)
      ∧ tracked_create km (Except.ok ⟨m, none⟩) tracked
          = (Except.ok ⟨m, none⟩, tracked)
      ∧ tracked_create km (Except.ok ⟨m, some u⟩) tracked
          = (Except.ok ⟨m, some u⟩, tracked ++ [⟨km.getD m, u.1, u.2⟩]) :=
  ⟨rfl, rfl, rfl⟩

/-- JSON-like values, enough to mirror the dict literal that track_usage
builds. -/
inductive JVal where
  | s (v : String)
  | n (v : ℚ)
  | obj (fields : List (String × JVal))
  | nullv

/-- Dict built by track_usage at auto_tracker.py lines 160-176, as an
ordered list of field-name and value pairs: timestamp, agent, model, a
nested tokens object with input, output and total, cost_usd, metadata and
environment.  The timestamp string and the metadata and environment
objects are passed in, since they come from the clock and the process
environment. -/
def track_usage_data (ts agent model : String) (input_tokens output_tokens : ℕ)
    (metadata env : List (String × JVal)) : List (String × JVal) :=
  [("timestamp", JVal.s ts),
   ("agent", JVal.s agent),
   ("model", JVal.s model),
   ("tokens", JVal.obj
      [("input", JVal.n input_tokens),
       ("output", JVal.n output_tokens),
       ("total", JVal.n ((input_tokens : ℚ) + output_tokens))]),
   ("cost_usd", JVal.n (calculate_cost model input_tokens output_tokens)),
   ("metadata", JVal.obj metadata),
   ("environment", JVal.obj env)]

/-- Field names that claim C4 lists for every persisted record. -/
def claimedRecordFields : List String :=
  ["timestamp", "agent", "model", "input_tokens", "output_tokens",
   "total_tokens", "cost", "execution_time", "status", "run_id"]

/-- Field names that calculate_stats of dashboard.py reads from each log
entry: cost (line 59), total_tokens (lines 60, 68), agent (line 66),
timestamp (lines 77, 85), input_tokens (line 88), output_tokens
(line 89). -/
def aggregatorReadFields : List String :=
  ["cost", "total_tokens", "agent", "timestamp", "input_tokens",
   "output_tokens"]

/-- C4 counterexample. The record track_usage builds is not the claimed
flat object: its field names are timestamp, agent, model, tokens,
cost_usd, metadata, environment — token counts sit in a nested tokens
object and the cost field is cost_usd — while the Aggregator reads the
flat name input_tokens, which the record does not contain. -/
theorem c4_field_names_cx :
    (track_usage_data "t" "a" "m" 1 2 [] []).map Prod.fst
        = ["timestamp", "agent", "model", "tokens", "cost_usd", "metadata",
           "environment"]
      ∧ (track_usage_data "t" "a" "m" 1 2 [] []).map Prod.fst
          ≠ claimedRecordFields
      ∧ "input_tokens" ∈ aggregatorReadFields
      ∧ "input_tokens" ∉ (track_usage_data "t" "a" "m" 1 2 [] []).map Prod.fst := by
  refine ⟨rfl, by decide, by decide, by decide⟩

/-- C4 amended. For every input, the record track_usage builds has exactly
the fields timestamp, agent, model, tokens, cost_usd, metadata,
environment, in that order; of the field names the Aggregator reads, only
agent and timestamp appear in it — cost, total_tokens, input_tokens and
output_tokens do not (the token counts live inside the nested tokens
object under different names and the cost is stored as cost_usd). -/
theorem c4_fields_mismatch_amended (ts agent model : String) (i o : ℕ)
    (md env : List (String × JVal)) :
    (track_usage_data ts agent model i o md env).map Prod.fst
        = ["timestamp", "agent", "model", "tokens", "cost_usd", "metadata",
           "environment"]
      ∧ "cost" ∉ (track_usage_data ts agent model i o md env).map Prod.fst
      ∧ "total_tokens" ∉ (track_usage_data ts agent model i o md env).map Prod.fst
      ∧ "input_tokens" ∉ (track_usage_data ts agent model i o md env).map Prod.fst
      ∧ "output_tokens" ∉ (track_usage_data ts agent model i o md env).map Prod.fst
      ∧ "agent" ∈ (track_usage_data ts agent model i o md env).map Prod.fst
      ∧ "timestamp" ∈ (track_usage_data ts agent model i o md env).map Prod.fst := by
  have hfields : (track_usage_data ts agent model i o md env).map Prod.fst
      = ["timestamp", "agent", "model", "tokens", "cost_usd", "metadata",
         "environment"] := rfl
  rw [hfields]
  refine ⟨rfl, by decide, by decide, by decide, by decide, by decide, by decide⟩

/-- One metrics.json log entry as calculate_stats of dashboard.py reads it:
the timestamp string, the agent label, flat token counts and the cost.
Fields the dashboard page renders but calculate_stats itself never touches
(status, execution_time, run_id) are omitted. -/
structure Metric where
  timestamp : String
  agent : String
  input_tokens : ℕ
  output_tokens : ℕ
  total_tokens : ℕ
  cost : ℚ

/-- Per-agent accumulator of dashboard.py line 64: calls, tokens, cost. -/
structure AgentStat where
  calls : ℕ
  tokens : ℕ
  cost : ℚ

/-- Update of the per-agent defaultdict at dashboard.py lines 66-69 for one
metric, keeping dict insertion order: a new agent is appended with one
call, an existing agent has its three counters increased. -/
def bumpAgent (name : String) (tok : ℕ) (c : ℚ) :
    List (String × AgentStat) → List (String × AgentStat)
  | [] => [(name, ⟨1, tok, c⟩)]
  | (k, s) :: rest =>
    if k = name then (k, ⟨s.calls + 1, s.tokens + tok, s.cost + c⟩) :: rest
    else (k, s) :: bumpAgent name tok c rest

/-- Per-agent statistics loop of dashboard.py lines 64-69. -/
def agentsOf (metrics : List Metric) : List (String × AgentStat) :=
  metrics.foldl (fun acc m => bumpAgent m.agent m.total_tokens m.cost acc) []

/-- Update of the daily-cost defaultdict at dashboard.py line 80. -/
def bumpDaily (key : String) (v : ℚ) :
    List (String × ℚ) → List (String × ℚ)
  | [] => [(key, v)]
  | (k, c) :: rest =>
    if k = key then (k, c + v) :: rest else (k, c) :: bumpDaily key v rest

/-- Daily-cost loop of dashboard.py lines 71-82.  The timestamp parser
(datetime.fromisoformat) and the date-key formatter (strftime) are library
calls, supplied as oracles; parse returning none models the except clause
of lines 81-82 that silently skips a record whose timestamp cannot be
parsed or compared.  Time is in seconds, so the cutoff of line 72 is
now minus 30 days = now - 2592000, and the guard of line 78 is only the
lower bound cutoff less-or-equal timestamp. -/
def dailyCostsOf (parse : String → Option ℤ) (dayKey : ℤ → String) (now : ℤ)
    (metrics : List Metric) : List (String × ℚ) :=
  metrics.foldl (fun acc m =>
    match parse m.timestamp with
    | some t => if now - 2592000 ≤ t then bumpDaily (dayKey t) m.cost acc else acc
    | none => acc) []

/-- Window predicate actually enforced by dashboard.py line 78 for a
record: its timestamp parses and is at least now - 2592000.  There is no
upper bound. -/
def inWindow (parse : String → Option ℤ) (now : ℤ) (m : Metric) : Bool :=
  match parse m.timestamp with
  | some t => decide (now - 2592000 ≤ t)
  | none => false

/-- Descending-timestamp relation used in the model of
sorted(metrics, key=timestamp, reverse=True) at dashboard.py line 85. -/
def tsGE (a b : Metric) : Prop := b.timestamp ≤ a.timestamp

instance : DecidableRel tsGE :=
  fun a b => inferInstanceAs (Decidable (b.timestamp ≤ a.timestamp))

instance : IsTotal Metric tsGE := ⟨fun a b => le_total b.timestamp a.timestamp⟩

instance : IsTrans Metric tsGE := ⟨fun _ _ _ hab hbc => le_trans hbc hab⟩

/-- Recent-activity line 85 of dashboard.py:
sorted(metrics, key=timestamp, reverse=True)[:20].  Python sorting is
stable and with reverse=True keeps records of equal key in original list
order, which insertion sort under the reflexive descending relation tsGE
reproduces. -/
def recentActivityOf (metrics : List Metric) : List Metric :=
  (List.insertionSort tsGE metrics).take 20

/-- Sum of a rational-valued projection over a list. -/
def sumQ {α : Type} (f : α → ℚ) (l : List α) : ℚ := (l.map f).sum

/-- Sum of a natural-valued projection over a list. -/
def sumN {α : Type} (f : α → ℕ) (l : List α) : ℕ := (l.map f).sum

/-- Summary statistics produced by calculate_stats of dashboard.py lines
44-111.  The cost_comparison block (lines 87-100) and the wall-clock
last_updated string are presentation-only and not claimed, so they are
omitted here. -/
structure Stats where
  total_cost : ℚ
  total_tokens : ℕ
  total_calls : ℕ
  agents : List (String × AgentStat)
  recent_activity : List Metric
  daily_costs : List (String × ℚ)

/-- Function calculate_stats of dashboard.py lines 44-111: the empty log
returns the all-zero, all-empty summary of lines 46-56; otherwise totals
are straight sums over all records (lines 59-61), per-agent statistics,
the trailing-window daily costs and the 20 most recent records are
computed as above. -/
def calculate_stats (parse : String → Option ℤ) (dayKey : ℤ → String)
    (now : ℤ) (metrics : List Metric) : Stats :=
  if metrics.isEmpty then ⟨0, 0, 0, [], [], []⟩
  else
    ⟨sumQ Metric.cost metrics, sumN Metric.total_tokens metrics,
     metrics.length, agentsOf metrics, recentActivityOf metrics,
     dailyCostsOf parse dayKey now metrics⟩

theorem bumpDaily_total (key : String) (v : ℚ) (l : List (String × ℚ)) :
    sumQ Prod.snd (bumpDaily key v l) = sumQ Prod.snd l + v := by
  induction l with
  | nil => simp [bumpDaily, sumQ]
  | cons e rest ih =>
    obtain ⟨k, c⟩ := e
    by_cases hk : k = key
    · simp [bumpDaily, hk, sumQ]; ring
    · simp [bumpDaily, hk, sumQ] at ih ⊢
      rw [ih]; ring

theorem dailyCostsOf_total_aux (parse : String → Option ℤ)
    (dayKey : ℤ → String) (now : ℤ) (metrics : List Metric) :
    ∀ acc : List (String × ℚ),
      sumQ Prod.snd (metrics.foldl (fun acc m =>
          match parse m.timestamp with
          | some t => if now - 2592000 ≤ t then bumpDaily (dayKey t) m.cost acc
                      else acc
          | none => acc) acc)
        = sumQ Prod.snd acc
            + sumQ Metric.cost (metrics.filter (inWindow parse now)) := by
  induction metrics with
  | nil => intro acc; simp [sumQ]
  | cons m rest ih =>
    intro acc
    rw [List.foldl_cons, List.filter_cons]
    cases hp : parse m.timestamp with
    | none =>
      simp only [hp]
      rw [ih acc]
      simp [inWindow, hp]
    | some t =>
      simp only [hp]
      by_cases hw : now - 2592000 ≤ t
      · rw [if_pos hw, ih (bumpDaily (dayKey t) m.cost acc), bumpDaily_total]
        simp [inWindow, hp, hw, sumQ]
        ring
      · rw [if_neg hw, ih acc]
        simp [inWindow, hp, hw]

/-- C6 amended. For every parser, date formatter, clock and log: the
daily-cost mapping accumulates exactly the costs of records whose
timestamp parses and is at least now minus 30 days — records with
unparseable timestamps are skipped, and there is no upper bound, so
future-dated records are included — while total_cost sums the cost of
every record in the log, including records older than 30 days. -/
theorem c6_daily_window_amended (parse : String → Option ℤ)
    (dayKey : ℤ → String) (now : ℤ) (metrics : List Metric) :
    sumQ Prod.snd (calculate_stats parse dayKey now metrics).daily_costs
        = sumQ Metric.cost (metrics.filter (inWindow parse now))
      ∧ (calculate_stats parse dayKey now metrics).total_cost
        = sumQ Metric.cost metrics := by
  cases metrics with
  | nil => simp [calculate_stats, sumQ]
  | cons m rest =>
    constructor
    · have hd : (calculate_stats parse dayKey now (m :: rest)).daily_costs
          = dailyCostsOf parse dayKey now (m :: rest) := by
        simp [calculate_stats]
      rw [hd]
      unfold dailyCostsOf
      rw [dailyCostsOf_total_aux]
      simp [sumQ]
    · simp [calculate_stats]

/-- Parser oracle used by the concrete C6 scenario: every timestamp
parses to one day past the epoch. -/
def parseFuture : String → Option ℤ := fun _ => some 86400

/-- Date-key oracle used by the concrete scenarios. -/
def dayKeyConst : ℤ → String := fun _ => "2099-01-01"

/-- A single record whose timestamp lies in the future of the clock value
now = 0 used in the C6 scenario, with cost 5. -/
def futureMetric : Metric :=
  ⟨"2099-01-01T00:00:00", "agent-a", 0, 0, 0, 5⟩

/-- Daily-cost accumulation as the C6 claim words it: restricted to
timestamps within the trailing 30-day window ending at now, with both a
lower and an upper bound.  Modelled from the claim for comparison with
the source behaviour. -/
def dailyCostsC6spec (parse : String → Option ℤ) (dayKey : ℤ → String)
    (now : ℤ) (metrics : List Metric) : List (String × ℚ) :=
  metrics.foldl (fun acc m =>
    match parse m.timestamp with
    | some t => if now - 2592000 ≤ t ∧ t ≤ now
                then bumpDaily (dayKey t) m.cost acc else acc
    | none => acc) []

/-- C6 counterexample. The code applies no upper bound at now: a record
dated one day after the clock value now = 0 contributes its cost 5 to the
daily-cost mapping, whereas under the claimed trailing window ending at
now it would be excluded and the mapping would total 0. -/
theorem c6_future_timestamp_cx :
    sumQ Prod.snd (calculate_stats parseFuture dayKeyConst 0
        [futureMetric]).daily_costs = 5
      ∧ sumQ Prod.snd (dailyCostsC6spec parseFuture dayKeyConst 0
          [futureMetric]) = 0
      ∧ (5 : ℚ) ≠ 0 := by
  have hin : ((0 : ℤ) - 2592000 ≤ 86400) := by norm_num
  have hout : ¬ ((0 : ℤ) - 2592000 ≤ 86400 ∧ (86400 : ℤ) ≤ 0) := by omega
  refine ⟨?_, ?_, by norm_num⟩
  · simp [calculate_stats, dailyCostsOf, parseFuture, dayKeyConst,
      futureMetric, hin, bumpDaily, sumQ]
  · simp [dailyCostsC6spec, parseFuture, futureMetric, hout, sumQ]

theorem bumpAgent_sums (name : String) (tok : ℕ) (c : ℚ)
    (l : List (String × AgentStat)) :
    sumN (fun e => e.2.calls) (bumpAgent name tok c l)
        = sumN (fun e => e.2.calls) l + 1
      ∧ sumN (fun e => e.2.tokens) (bumpAgent name tok c l)
        = sumN (fun e => e.2.tokens) l + tok
      ∧ sumQ (fun e => e.2.cost) (bumpAgent name tok c l)
        = sumQ (fun e => e.2.cost) l + c := by
  induction l with
  | nil => simp [bumpAgent, sumN, sumQ]
  | cons e rest ih =>
    obtain ⟨k, s⟩ := e
    obtain ⟨i1, i2, i3⟩ := ih
    by_cases hk : k = name
    · refine ⟨?_, ?_, ?_⟩ <;> simp [bumpAgent, hk, sumN, sumQ] <;> ring
    · simp only [sumN, sumQ] at i1 i2 i3
      refine ⟨?_, ?_, ?_⟩ <;>
        simp only [bumpAgent, hk, ite_false, if_false, sumN, sumQ,
          List.map_cons, List.sum_cons, i1, i2, i3] <;> ring 

theorem agentsOf_sums_aux (metrics : List Metric) :
    ∀ acc : List (String × AgentStat),
      sumN (fun e => e.2.calls) (metrics.foldl
          (fun acc m => bumpAgent m.agent m.total_tokens m.cost acc) acc)
          = sumN (fun e => e.2.calls) acc + metrics.length
        ∧ sumN (fun e => e.2.tokens) (metrics.foldl
            (fun acc m => bumpAgent m.agent m.total_tokens m.cost acc) acc)
          = sumN (fun e => e.2.tokens) acc + sumN Metric.total_tokens metrics
        ∧ sumQ (fun e => e.2.cost) (metrics.foldl
            (fun acc m => bumpAgent m.agent m.total_tokens m.cost acc) acc)
          = sumQ (fun e => e.2.cost) acc + sumQ Metric.cost metrics := by
  induction metrics with
  | nil => intro acc; simp [sumN, sumQ]
  | cons m rest ih =>
    intro acc
    rw [List.foldl_cons]
    obtain ⟨j1, j2, j3⟩ := ih (bumpAgent m.agent m.total_tokens m.cost acc)
    obtain ⟨b1, b2, b3⟩ := bumpAgent_sums m.agent m.total_tokens m.cost acc
    refine ⟨?_, ?_, ?_⟩
    · rw [j1, b1]; simp; omega
    · rw [j2, b2]; simp [sumN]; ring
    · rw [j3, b3]; simp [sumQ]; ring

theorem agentsOf_sums (metrics : List Metric) :
    sumN (fun e => e.2.calls) (agentsOf metrics) = metrics.length
      ∧ sumN (fun e => e.2.tokens) (agentsOf metrics)
          = sumN Metric.total_tokens metrics
      ∧ sumQ (fun e => e.2.cost) (agentsOf metrics)
          = sumQ Metric.cost metrics := by
  obtain ⟨h1, h2, h3⟩ := agentsOf_sums_aux metrics []
  simp only [sumN, sumQ, List.map_nil, List.sum_nil, Nat.zero_add,
    zero_add] at h1 h2 h3
  exact ⟨h1, h2, h3⟩

/-- C10. For every non-empty record log, the per-agent breakdown of
calculate_stats partitions the global totals: the calls of all agents sum
to total_calls, their tokens to total_tokens and their costs to
total_cost. -/
theorem c10_agent_partition (parse : String → Option ℤ)
    (dayKey : ℤ → String) (now : ℤ) (metrics : List Metric)
    (h : metrics ≠ []) :
    sumN (fun e => e.2.calls)
        (calculate_stats parse dayKey now metrics).agents
        = (calculate_stats parse dayKey now metrics).total_calls
      ∧ sumN (fun e => e.2.tokens)
          (calculate_stats parse dayKey now metrics).agents
        = (calculate_stats parse dayKey now metrics).total_tokens
      ∧ sumQ (fun e => e.2.cost)
          (calculate_stats parse dayKey now metrics).agents
        = (calculate_stats parse dayKey now metrics).total_cost := by
  cases metrics with
  | nil => exact absurd rfl h
  | cons m rest =>
    simp only [calculate_stats, List.isEmpty_cons, Bool.false_eq_true,
      if_false, ite_false]
    exact agentsOf_sums (m :: rest)

/-- Witness for C10 at a concrete one-record log. -/
theorem c10_agent_partition_witness :
    ([futureMetric] ≠ [])
      ∧ (sumN (fun e => e.2.calls)
            (calculate_stats parseFuture dayKeyConst 0 [futureMetric]).agents
            = (calculate_stats parseFuture dayKeyConst 0 [futureMetric]).total_calls
          ∧ sumN (fun e => e.2.tokens)
              (calculate_stats parseFuture dayKeyConst 0 [futureMetric]).agents
            = (calculate_stats parseFuture dayKeyConst 0 [futureMetric]).total_tokens
          ∧ sumQ (fun e => e.2.cost)
              (calculate_stats parseFuture dayKeyConst 0 [futureMetric]).agents
            = (calculate_stats parseFuture dayKeyConst 0 [futureMetric]).total_cost) :=
  ⟨List.cons_ne_nil _ _,
   c10_agent_partition parseFuture dayKeyConst 0 [futureMetric]
     (List.cons_ne_nil _ _)⟩

theorem filter_orderedInsert_ts (t : String) (a : Metric) (l : List Metric) :
    (List.orderedInsert tsGE a l).filter (fun m => decide (m.timestamp = t))
      = if a.timestamp = t
        then a :: l.filter (fun m => decide (m.timestamp = t))
        else l.filter (fun m => decide (m.timestamp = t)) := by
  induction l with
  | nil =>
    by_cases hat : a.timestamp = t <;>
      simp [List.orderedInsert, List.filter, hat]
  | cons b bs ih =>
    by_cases hab : tsGE a b
    · by_cases hat : a.timestamp = t <;>
        simp [List.orderedInsert, hab, List.filter_cons, hat]
    · have haltb : a.timestamp < b.timestamp := not_le.mp hab
      simp only [List.orderedInsert, hab, ite_false, if_false]
      rw [List.filter_cons, List.filter_cons]
      by_cases hbt : b.timestamp = t
      · by_cases hat : a.timestamp = t
        · exact absurd (hat.trans hbt.symm) (ne_of_lt haltb)
        · simp [hbt, hat, ih]
      · by_cases hat : a.timestamp = t <;> simp [hbt, hat, ih]

theorem filter_insertionSort_ts (t : String) (l : List Metric) :
    (List.insertionSort tsGE l).filter (fun m => decide (m.timestamp = t))
      = l.filter (fun m => decide (m.timestamp = t)) := by
  induction l with
  | nil => rfl
  | cons a as ih =>
    simp only [List.insertionSort]
    rw [filter_orderedInsert_ts, List.filter_cons]
    by_cases hat : a.timestamp = t <;> simp [hat, ih]

/-- C7. For every record log, the recent-activity list of calculate_stats
consists of the 20 records of greatest timestamp (all records when fewer
than 20 exist) in descending timestamp order: its length is
min 20 (length of the log); it extends, by some remainder, to a
permutation of the whole log that is descending throughout — so every
retained record has a timestamp at least that of every dropped record —
and for every timestamp value the retained records carrying it appear as
a sublist of the log records carrying it, in original log order (ties
keep log order, by stability of the sort). -/
theorem c7_recent_activity_props (parse : String → Option ℤ)
    (dayKey : ℤ → String) (now : ℤ) (metrics : List Metric) :
    (calculate_stats parse dayKey now metrics).recent_activity.length
        = min 20 metrics.length
      ∧ (∃ rest : List Metric,
          ((calculate_stats parse dayKey now metrics).recent_activity
              ++ rest).Perm metrics
            ∧ List.Pairwise tsGE
                ((calculate_stats parse dayKey now metrics).recent_activity
                  ++ rest))
      ∧ ∀ t : String,
          ((calculate_stats parse dayKey now metrics).recent_activity.filter
              (fun m => decide (m.timestamp = t))).Sublist
            (metrics.filter (fun m => decide (m.timestamp = t))) := by
  cases metrics with
  | nil =>
    refine ⟨by simp [calculate_stats], ⟨[], by simp [calculate_stats],
      by simp [calculate_stats]⟩, ?_⟩
    intro t
    simp [calculate_stats]
  | cons m rest0 =>
    have hra : (calculate_stats parse dayKey now (m :: rest0)).recent_activity
        = recentActivityOf (m :: rest0) := by
      simp [calculate_stats]
    rw [hra]
    refine ⟨?_, ⟨(List.insertionSort tsGE (m :: rest0)).drop 20, ?_, ?_⟩, ?_⟩
    · unfold recentActivityOf
      rw [List.length_take,
        (List.perm_insertionSort tsGE (m :: rest0)).length_eq]
    · unfold recentActivityOf
      rw [List.take_append_drop]
      exact List.perm_insertionSort tsGE (m :: rest0)
    · unfold recentActivityOf
      rw [List.take_append_drop]
      exact List.sorted_insertionSort tsGE (m :: rest0)
    · intro t
      unfold recentActivityOf
      have hsub : List.Sublist ((List.insertionSort tsGE (m :: rest0)).take 20)
          (List.insertionSort tsGE (m :: rest0)) := List.take_sublist _ _
      have hf := hsub.filter (fun m => decide (m.timestamp = t))
      rw [filter_insertionSort_ts] at hf
      exact hf
